import Mathlib

/-!
Verification of the haberdasher supervisor (src/main.go, src/logging/emit.go).

The development shallowly embeds the two Go source files:

* the JSON decoding performed by `encoding/json.Unmarshal` is modelled by an
  executable recursive-descent parser over `List Char` (`parseValue` and
  friends), together with the Go-specific decode rules for
  `map[string]interface`, `[]string`, and `map[string]string` targets
  (a JSON `null` decodes into any of those targets without error, leaving
  the nil zero value);
* the JSON encoding performed by `encoding/json.Marshal` is modelled by the
  Go string escaper (`quoteGoString`, HTML escaping on, as Marshal defaults
  to) and per-field marshalling of the `Message` struct in declaration
  order with its struct-tag key names;
* `logging.init`, `logging.Register`, `logging.Emit`, and
  `main.signalHandler` are translated function by function; effects
  (delivery to the sink, local error logs, `os.Exit`) become explicit
  fields of result records;
* the concurrent read loop of `main` (`scanner.Scan` + one goroutine per
  line that calls `scanner.Text()` inside the goroutine body) is modelled
  as a small-step interleaving semantics over schedules of scan events and
  task-run events.
-/

namespace Haberdasher

/-- Opening brace character, written by code point to keep string literals free
of raw braces. -/
def lbrace : Char := Char.ofNat 123

/-- Closing brace character. -/
def rbrace : Char := Char.ofNat 125

/-- JSON values as decoded by Go encoding/json into an interface value.
Numbers are kept as their source text: no claim depends on numeric value,
only on the syntactic class of the decoded value. -/
inductive Jval where
  | null
  | bool (b : Bool)
  | num (lit : String)
  | str (s : String)
  | arr (elems : List Jval)
  | obj (fields : List (String × Jval))

/-- Whitespace accepted between JSON tokens (space, tab, newline, carriage
return), as in the Go scanner. -/
def isJsonWs (c : Char) : Bool :=
  c = ' ' || c = '\t' || c = '\n' || c = '\r'

/-- Drop leading JSON whitespace. -/
def skipWs : List Char → List Char
  | [] => []
  | c :: cs => if isJsonWs c then skipWs cs else c :: cs

/-- Value of one hexadecimal digit. -/
def hexVal (c : Char) : Option Nat :=
  if '0' ≤ c ∧ c ≤ '9' then some (c.toNat - '0'.toNat)
  else if 'a' ≤ c ∧ c ≤ 'f' then some (c.toNat - 'a'.toNat + 10)
  else if 'A' ≤ c ∧ c ≤ 'F' then some (c.toNat - 'A'.toNat + 10)
  else none

/-- Unicode replacement character, produced by Go for unpaired surrogates. -/
def repChar : Char := Char.ofNat 0xFFFD

/-- Four hex digits of a \u escape. -/
def parseUnicodeEscape : List Char → Option (Nat × List Char)
  | a :: b :: c :: d :: rest =>
    match hexVal a, hexVal b, hexVal c, hexVal d with
    | some va, some vb, some vc, some vd =>
      some (va * 4096 + vb * 256 + vc * 16 + vd, rest)
    | _, _, _, _ => none
  | _ => none

/-- Single-character escapes accepted after a backslash in a JSON string. -/
def escapeChar (e : Char) : Option Char :=
  if e = '\"' then some '\"'
  else if e = '\\' then some '\\'
  else if e = '/' then some '/'
  else if e = 'b' then some (Char.ofNat 8)
  else if e = 'f' then some (Char.ofNat 12)
  else if e = 'n' then some '\n'
  else if e = 'r' then some '\r'
  else if e = 't' then some '\t'
  else none

/-- Body of a JSON string, entered after the opening quote; returns the decoded
characters and the remaining input after the closing quote. Mirrors the Go
unquoting rules: control characters must be escaped, surrogate pairs in \u
escapes are combined, lone surrogates become the replacement character. -/
def parseStringBody : Nat → List Char → Option (List Char × List Char)
  | 0, _ => none
  | _ + 1, [] => none
  | fuel + 1, c :: cs =>
    if c = '\"' then some ([], cs)
    else if c = '\\' then
      match cs with
      | [] => none
      | e :: cs2 =>
        if e = 'u' then
          match parseUnicodeEscape cs2 with
          | none => none
          | some (n, rest) =>
            if 0xD800 ≤ n ∧ n ≤ 0xDBFF then
              match rest with
              | '\\' :: 'u' :: rest2 =>
                match parseUnicodeEscape rest2 with
                | some (n2, rest3) =>
                  if 0xDC00 ≤ n2 ∧ n2 ≤ 0xDFFF then
                    (parseStringBody fuel rest3).map
                      (fun p => (Char.ofNat (0x10000 + (n - 0xD800) * 0x400 + (n2 - 0xDC00)) :: p.1, p.2))
                  else
                    (parseStringBody fuel rest).map (fun p => (repChar :: p.1, p.2))
                | none => (parseStringBody fuel rest).map (fun p => (repChar :: p.1, p.2))
              | _ => (parseStringBody fuel rest).map (fun p => (repChar :: p.1, p.2))
            else if 0xDC00 ≤ n ∧ n ≤ 0xDFFF then
              (parseStringBody fuel rest).map (fun p => (repChar :: p.1, p.2))
            else
              (parseStringBody fuel rest).map (fun p => (Char.ofNat n :: p.1, p.2))
        else
          match escapeChar e with
          | some d => (parseStringBody fuel cs2).map (fun p => (d :: p.1, p.2))
          | none => none
    else if c.toNat < 0x20 then none
    else (parseStringBody fuel cs).map (fun p => (c :: p.1, p.2))

/-- Longest digit run at the front of the input. -/
def spanDigits : List Char → List Char × List Char
  | [] => ([], [])
  | c :: cs =>
    if c.isDigit then
      let p := spanDigits cs
      (c :: p.1, p.2)
    else ([], c :: cs)

/-- Integer part of a JSON number: a single zero, or a nonzero digit followed
by digits. -/
def parseIntPart : List Char → Option (List Char × List Char)
  | [] => none
  | c :: cs =>
    if c = '0' then some (['0'], cs)
    else if c.isDigit then
      let p := spanDigits cs
      some (c :: p.1, p.2)
    else none

/-- Optional fraction part: a dot must be followed by at least one digit. -/
def parseFracPart : List Char → Option (List Char × List Char)
  | '.' :: cs =>
    match spanDigits cs with
    | ([], _) => none
    | (ds, rest) => some ('.' :: ds, rest)
  | cs => some ([], cs)

/-- Optional exponent part: e or E, an optional sign, then at least one
digit. -/
def parseExpPart : List Char → Option (List Char × List Char)
  | [] => some ([], [])
  | c :: cs =>
    if c = 'e' ∨ c = 'E' then
      match cs with
      | [] => none
      | s :: cs2 =>
        if s = '+' ∨ s = '-' then
          match spanDigits cs2 with
          | ([], _) => none
          | (ds, rest) => some (c :: s :: ds, rest)
        else
          match spanDigits (s :: cs2) with
          | ([], _) => none
          | (ds, rest) => some (c :: ds, rest)
    else some ([], c :: cs)

/-- A JSON number literal: optional minus, integer part, optional fraction and
exponent. Returns the literal text and the remaining input. -/
def parseNumberBody (cs : List Char) : Option (List Char × List Char) :=
  let start : List Char × List Char :=
    match cs with
    | '-' :: rest => (['-'], rest)
    | _ => ([], cs)
  match parseIntPart start.2 with
  | none => none
  | some (ip, r1) =>
    match parseFracPart r1 with
    | none => none
    | some (fp, r2) =>
      match parseExpPart r2 with
      | none => none
      | some (ep, r3) => some (start.1 ++ ip ++ fp ++ ep, r3)

mutual

/-- One JSON value, after optional leading whitespace. Fuel only bounds the
recursion depth; `unmarshalTop` supplies enough for any input it is given. -/
def parseValue : Nat → List Char → Option (Jval × List Char)
  | 0, _ => none
  | fuel + 1, cs =>
    match skipWs cs with
    | [] => none
    | c :: rest =>
      if c = '\"' then
        match parseStringBody (rest.length + 1) rest with
        | some (content, r) => some (.str (String.mk content), r)
        | none => none
      else if c = lbrace then parseObjStart fuel rest
      else if c = '[' then parseArrStart fuel rest
      else if c = 't' then
        match rest with
        | 'r' :: 'u' :: 'e' :: r => some (.bool true, r)
        | _ => none
      else if c = 'f' then
        match rest with
        | 'a' :: 'l' :: 's' :: 'e' :: r => some (.bool false, r)
        | _ => none
      else if c = 'n' then
        match rest with
        | 'u' :: 'l' :: 'l' :: r => some (.null, r)
        | _ => none
      else
        match parseNumberBody (c :: rest) with
        | some (lit, r) => some (.num (String.mk lit), r)
        | none => none

/-- Array contents, entered after the opening bracket. -/
def parseArrStart : Nat → List Char → Option (Jval × List Char)
  | 0, _ => none
  | fuel + 1, cs =>
    match skipWs cs with
    | ']' :: r => some (.arr [], r)
    | cs2 =>
      match parseArrRest fuel cs2 with
      | some (vs, r) => some (.arr vs, r)
      | none => none

/-- One or more comma-separated array elements followed by the closing
bracket. -/
def parseArrRest : Nat → List Char → Option (List Jval × List Char)
  | 0, _ => none
  | fuel + 1, cs =>
    match parseValue fuel cs with
    | none => none
    | some (v, r) =>
      match skipWs r with
      | ',' :: r2 =>
        match parseArrRest fuel r2 with
        | some (vs, r3) => some (v :: vs, r3)
        | none => none
      | ']' :: r2 => some ([v], r2)
      | _ => none

/-- Object contents, entered after the opening brace. -/
def parseObjStart : Nat → List Char → Option (Jval × List Char)
  | 0, _ => none
  | fuel + 1, cs =>
    match skipWs cs with
    | [] => none
    | c :: r =>
      if c = rbrace then some (.obj [], r)
      else
        match parseObjRest fuel (c :: r) with
        | some (fs, r2) => some (.obj fs, r2)
        | none => none

/-- One or more comma-separated key-value pairs followed by the closing
brace. Keys must be JSON strings. -/
def parseObjRest : Nat → List Char → Option (List (String × Jval) × List Char)
  | 0, _ => none
  | fuel + 1, cs =>
    match skipWs cs with
    | '\"' :: r =>
      match parseStringBody (r.length + 1) r with
      | none => none
      | some (key, r2) =>
        match skipWs r2 with
        | ':' :: r3 =>
          match parseValue fuel r3 with
          | none => none
          | some (v, r4) =>
            match skipWs r4 with
            | [] => none
            | c :: r5 =>
              if c = ',' then
                match parseObjRest fuel r5 with
                | some (fs, r6) => some ((String.mk key, v) :: fs, r6)
                | none => none
              else if c = rbrace then some ([(String.mk key, v)], r5)
              else none
        | _ => none
    | _ => none

end

/-- Numeric value of a run of decimal digits. -/
def digitsToNat (ds : List Char) : Nat :=
  ds.foldl (fun a c => 10 * a + (c.toNat - '0'.toNat)) 0

/-- Decimal components of a JSON number literal: the mantissa formed by the
integer and fraction digits, the count of those digits, and the decimal
exponent (the written exponent shifted down by the fraction length), so that
the literal denotes mantissa times ten to the exponent, sign disregarded. -/
def numLitParts (lit : String) : Nat × Nat × Int :=
  let cs := match lit.data with
    | '-' :: r => r
    | r => r
  let ip := spanDigits cs
  let fr := match ip.2 with
    | '.' :: r => spanDigits r
    | _ => (([] : List Char), ip.2)
  let ex : Int := match fr.2 with
    | c :: r =>
      if c = 'e' ∨ c = 'E' then
        match r with
        | '-' :: d => -(digitsToNat (spanDigits d).1 : Int)
        | '+' :: d => (digitsToNat (spanDigits d).1 : Int)
        | d => (digitsToNat (spanDigits d).1 : Int)
      else 0
    | [] => 0
  (digitsToNat (ip.1 ++ fr.1), (ip.1 ++ fr.1).length, ex - fr.1.length)

/-- Smallest decimal magnitude that strconv.ParseFloat on 64 bits rounds to
infinity and reports as a range error: the midpoint between the largest
finite double (2^1024 - 2^971) and 2^1024, which IEEE 754 unbiased rounding
(round half to even) sends up to infinity; every smaller magnitude rounds to
a finite double without error, underflow included. -/
def float64OverflowThreshold : Nat := 2 ^ 1024 - 2 ^ 970

/-- Whether strconv.ParseFloat on 64 bits reports a range error for a JSON
number literal, which Go's convertNumber turns into an Unmarshal error for
every number decoded into an interface value. The comparison of the exact
decimal magnitude against the rounding threshold is in integers; the two
guard branches only shortcut it: with d mantissa digits the magnitude is at
least 10^(e) and less than 10^(d+e), and the threshold lies strictly
between 10^308 and 10^309. -/
def numOverflows (lit : String) : Bool :=
  let p := numLitParts lit
  let m := p.1
  let d := p.2.1
  let e := p.2.2
  if m = 0 then false
  else if 309 ≤ e then true
  else if (d : Int) + e ≤ 308 then false
  else if 0 ≤ e then float64OverflowThreshold ≤ m * 10 ^ e.toNat
  else float64OverflowThreshold * 10 ^ (-e).toNat ≤ m

mutual

/-- Whether every number in a decoded JSON value fits in float64, so that
decoding the value into interface values reports no range error. -/
def jvalNumsOk : Jval → Bool
  | .num lit => !numOverflows lit
  | .arr es => jvalListNumsOk es
  | .obj fs => jvalFieldsNumsOk fs
  | _ => true

def jvalListNumsOk : List Jval → Bool
  | [] => true
  | v :: vs => jvalNumsOk v && jvalListNumsOk vs

def jvalFieldsNumsOk : List (String × Jval) → Bool
  | [] => true
  | (_, v) :: fs => jvalNumsOk v && jvalFieldsNumsOk fs

end

mutual

/-- Nesting depth of a JSON value: the number of composite levels open at its
deepest point, as the Go scanner counts parseDepth. -/
def jvalDepth : Jval → Nat
  | .arr es => 1 + jvalListDepth es
  | .obj fs => 1 + jvalFieldsDepth fs
  | _ => 0

def jvalListDepth : List Jval → Nat
  | [] => 0
  | v :: vs => max (jvalDepth v) (jvalListDepth vs)

def jvalFieldsDepth : List (String × Jval) → Nat
  | [] => 0
  | (_, v) :: fs => max (jvalDepth v) (jvalFieldsDepth fs)

end

/-- Deepest nesting the Go json scanner accepts (scanner.go maxNestingDepth);
one level beyond it is a parse error. -/
def maxNestingDepth : Nat := 10000

/-- Model of json.Unmarshal applied to a whole input: one JSON value with
only whitespace around it and nesting no deeper than the scanner limit,
otherwise a decode error (`none`). -/
def unmarshalTop (s : String) : Option Jval :=
  match parseValue (4 * s.data.length + 8) s.data with
  | none => none
  | some (v, rest) =>
    if (skipWs rest).isEmpty ∧ jvalDepth v ≤ maxNestingDepth then some v else none

/-- Success of json.Unmarshal into a map of string to interface target, as in
Emit (emit.go line 70): a JSON object decodes when every number in it fits
in float64, and a JSON null also decodes without error (leaving the map
nil). Every other value, every syntax or depth error, and every number out
of float64 range reports an error. -/
def unmarshalIntoMapOk (s : String) : Bool :=
  match unmarshalTop s with
  | some (.obj fields) => jvalFieldsNumsOk fields
  | some .null => true
  | _ => false

/-- Decode of one JSON value into a Go string target: a string decodes to
itself and a null is ignored without error, leaving the zero value. -/
def decodeStringElem : Jval → Option String
  | .str s => some s
  | .null => some ""
  | _ => none

/-- Decode of a list of JSON values into Go strings, failing on the first
non-string element. -/
def decodeStringList : List Jval → Option (List String)
  | [] => some []
  | v :: rest =>
    match decodeStringElem v, decodeStringList rest with
    | some s, some l => some (s :: l)
    | _, _ => none

/-- Model of json.Unmarshal into a Go string slice target (the defaultTags
variable): null gives the nil slice, an array of strings gives that list,
anything else is a decode error. -/
def decodeStringArray (s : String) : Option (Option (List String)) :=
  match unmarshalTop s with
  | some .null => some none
  | some (.arr vs) => (decodeStringList vs).map some
  | _ => none

/-- Insert a key into an association list, replacing any existing binding, as
assignment into a Go map does. -/
def insertReplace (m : List (String × String)) (k v : String) : List (String × String) :=
  match m with
  | [] => [(k, v)]
  | (k2, v2) :: rest => if k2 = k then (k, v) :: rest else (k2, v2) :: insertReplace rest k v

/-- Decode of JSON object fields into a Go map of string to string, in source
order, later duplicate keys overwriting earlier ones. -/
def decodeStringPairs (fields : List (String × Jval)) : Option (List (String × String)) :=
  fields.foldl
    (fun acc kv =>
      match acc, decodeStringElem kv.2 with
      | some m, some s => some (insertReplace m kv.1 s)
      | _, _ => none)
    (some [])

/-- Model of json.Unmarshal into a Go map of string to string target (the
defaultLabels variable): null gives the nil map, an object with string
values gives its bindings, anything else is a decode error. -/
def decodeStringMap (s : String) : Option (Option (List (String × String))) :=
  match unmarshalTop s with
  | some .null => some none
  | some (.obj fields) => (decodeStringPairs fields).map some
  | _ => none

/-- Hexadecimal digit used by the Go JSON string encoder. -/
def hexDigit (n : Nat) : Char :=
  if n < 10 then Char.ofNat ('0'.toNat + n) else Char.ofNat ('a'.toNat + n - 10)

/-- Encoding of one character by the Go JSON string encoder with HTML escaping
on, which is the json.Marshal default: quote, backslash and control
characters are escaped, as are angle brackets, ampersand and the line and
paragraph separators; everything else is passed through. -/
def encodeChar (c : Char) : List Char :=
  if c = '\"' then ['\\', '\"']
  else if c = '\\' then ['\\', '\\']
  else if c = '\n' then ['\\', 'n']
  else if c = '\r' then ['\\', 'r']
  else if c = '\t' then ['\\', 't']
  else if c.toNat < 0x20 then ['\\', 'u', '0', '0', hexDigit (c.toNat / 16), hexDigit (c.toNat % 16)]
  else if c = '<' then ['\\', 'u', '0', '0', '3', 'c']
  else if c = '>' then ['\\', 'u', '0', '0', '3', 'e']
  else if c = '&' then ['\\', 'u', '0', '0', '2', '6']
  else if c.toNat = 0x2028 then ['\\', 'u', '2', '0', '2', '8']
  else if c.toNat = 0x2029 then ['\\', 'u', '2', '0', '2', '9']
  else [c]

/-- Body of the Go JSON encoding of a string, without the delimiting
quotes. -/
def encodeStringContent (s : String) : String :=
  String.mk (s.data.map encodeChar).flatten

/-- Go JSON encoding of a string, quotes included, as json.Marshal produces
for string values and for precomputed struct field names. -/
def quoteGoString (s : String) : String :=
  "\"" ++ encodeStringContent s ++ "\""

/-- Comma-separated join of already encoded JSON items. -/
def joinComma : List String → String
  | [] => ""
  | [s] => s
  | s :: rest => s ++ "," ++ joinComma rest

/-- Insertion of one pair into a list sorted by key. -/
def insertSorted (p : String × String) : List (String × String) → List (String × String)
  | [] => [p]
  | q :: rest => if p.1 ≤ q.1 then p :: q :: rest else q :: insertSorted p rest

/-- Sort of an association list by key, as json.Marshal sorts the keys of a Go
map before emitting it. -/
def sortByKey (l : List (String × String)) : List (String × String) :=
  l.foldr insertSorted []

/-- Go JSON marshalling of a string slice: the nil slice marshals as null, a
non-nil slice as an array of encoded strings. -/
def goMarshalStringSlice : Option (List String) → String
  | none => "null"
  | some ts => "[" ++ joinComma (ts.map quoteGoString) ++ "]"

/-- Go JSON marshalling of a map of string to string: the nil map marshals as
null, a non-nil map as an object with its keys sorted. -/
def goMarshalStringMap : Option (List (String × String)) → String
  | none => "null"
  | some ls =>
    "\x7b" ++ joinComma ((sortByKey ls).map (fun kv => quoteGoString kv.1 ++ ":" ++ quoteGoString kv.2)) ++ "\x7d"

/-- Go JSON marshalling of a time.Time value: its RFC 3339 rendering between
plain quotes. The rendering itself is supplied as a string, since wall-clock
capture is an input of the model. -/
def goMarshalTime (t : String) : String :=
  "\"" ++ t ++ "\""

mutual

/-- Canonical serialization of a JSON value, matching the Go encoder on every
construct the program produces. -/
def serializeVal : Jval → String
  | .null => "null"
  | .bool true => "true"
  | .bool false => "false"
  | .num lit => lit
  | .str s => quoteGoString s
  | .arr es => "[" ++ joinComma (serializeList es) ++ "]"
  | .obj fs => "\x7b" ++ joinComma (serializeFields fs) ++ "\x7d"

def serializeList : List Jval → List String
  | [] => []
  | v :: vs => serializeVal v :: serializeList vs

def serializeFields : List (String × Jval) → List String
  | [] => []
  | (k, v) :: fs => (quoteGoString k ++ ":" ++ serializeVal v) :: serializeFields fs

end

namespace Logging

/-- Fixed ECS schema version constant (emit.go line 12). -/
def defaultEcsVersion : String := "1.5.0"

/-- Literal default for HABERDASHER_TAGS when the variable is unset
(emit.go line 21). -/
def emptyArrayLit : String := "[]"

/-- Literal default for HABERDASHER_LABELS when the variable is unset
(emit.go line 25). -/
def emptyObjectLit : String := "\x7b\x7d"

/-- An Emitter ships a log message to a log service (emit.go lines 38-42).
Setup performs connection work and is not observed by any claim;
handleLogMessage returns the error reported for a delivered record, if any;
cleanup is the error reported by the Cleanup call, if any. -/
structure Emitter where
  handleLogMessage : String → Option String
  cleanup : Option String

/-- The structured log message synthesized for unstructured lines
(emit.go lines 46-52), with the field types of the Go struct: the labels
map and the tags slice can be nil (`none`). The timestamp field holds the
RFC 3339 rendering of the capture-time instant. -/
structure Message where
  ecsVersion : String
  timestamp : String
  labels : Option (List (String × String))
  tags : Option (List String)
  message : String

/-- The init function of the logging package (emit.go lines 18-35): read the
two environment variables with their literal defaults, decode them, and
fail fatally with the source error text when a decode reports an error.
Go runs this before main, so a fatal here precedes everything main does. -/
def init (tagsEnv labelsEnv : Option String) :
    Except String (Option (List String) × Option (List (String × String))) :=
  let tagsFromEnv := tagsEnv.getD emptyArrayLit
  let labelsFromEnv := labelsEnv.getD emptyObjectLit
  match decodeStringArray tagsFromEnv with
  | none => .error "HABERDASHER_TAGS must be a JSON array of strings"
  | some defaultTags =>
    match decodeStringMap labelsFromEnv with
    | none => .error "HABERDASHER_LABELS must be a JSON object of strings"
    | some defaultLabels => .ok (defaultTags, defaultLabels)

/-- The registry of Emitter implementers and registration into it
(emit.go lines 54-60): assignment into the Emitters map under the given
name. -/
def Register (emitters : String → Option Emitter) (emitterType : String) (emitter : Emitter) :
    String → Option Emitter :=
  fun name => if name = emitterType then some emitter else emitters name

/-- json.Marshal of a Message value (emit.go line 72): fields in declaration
order under their struct-tag names, each value marshalled by its type. -/
def marshalMessage (m : Message) : String :=
  "\x7b" ++ quoteGoString "ecs.version" ++ ":" ++ quoteGoString m.ecsVersion ++
  "," ++ quoteGoString "@timestamp" ++ ":" ++ goMarshalTime m.timestamp ++
  "," ++ quoteGoString "labels" ++ ":" ++ goMarshalStringMap m.labels ++
  "," ++ quoteGoString "tags" ++ ":" ++ goMarshalStringSlice m.tags ++
  "," ++ quoteGoString "message" ++ ":" ++ quoteGoString m.message ++ "\x7d"

/-- The bytes Emit computes for one line (emit.go lines 67-73): the raw line
when it decodes into a map without error, otherwise the marshalled
synthesized Message built from the process-wide defaults, the capture-time
instant and the raw line. -/
def classifyLine (labels : Option (List (String × String))) (tags : Option (List String))
    (now logMessage : String) : String :=
  if unmarshalIntoMapOk logMessage then logMessage
  else marshalMessage ⟨defaultEcsVersion, now, labels, tags, logMessage⟩

/-- Observable outcome of one Emit call: the bytes handed to the sink and the
local error log line, if the sink reported an error. -/
structure EmitResult where
  delivered : String
  errorLogged : Option String

/-- Emit (emit.go lines 66-77): classify the line, hand the resulting bytes to
the handleLogMessage capability of the emitter, and log a local warning when
that call reports an error. Emit itself never fails. -/
def Emit (emitter : Emitter) (labels : Option (List (String × String)))
    (tags : Option (List String)) (now logMessage : String) : EmitResult :=
  { delivered := classifyLine labels tags now logMessage
    errorLogged :=
      (emitter.handleLogMessage (classifyLine labels tags now logMessage)).map
        (fun err => "Error emitting message: " ++ classifyLine labels tags now logMessage ++ " " ++ err) }

end Logging

namespace Main

open Logging

/-- Termination-class signals the supervisor subscribes to
(main.go line 61). -/
inductive Signal where
  | SIGHUP
  | SIGINT
  | SIGTERM
  | SIGKILL

/-- The switch statement of signalHandler (main.go lines 23-32): each received
signal is mapped to the same signal for the child. -/
def mapSignalToChild : Signal → Signal
  | .SIGHUP => .SIGHUP
  | .SIGINT => .SIGINT
  | .SIGTERM => .SIGTERM
  | .SIGKILL => .SIGKILL

/-- Scope of a POSIX kill call, determined by the pid argument: a positive pid
names one process, zero the own process group, minus one every process the
caller may signal, and another negative value the process group of its
absolute value. -/
inductive KillScope where
  | single (pid : Int)
  | ownProcessGroup
  | broadcast
  | processGroup (pgid : Int)
deriving DecidableEq

/-- POSIX semantics of the pid argument of syscall.Kill. -/
def killScope (pid : Int) : KillScope :=
  if 0 < pid then .single pid
  else if pid = 0 then .ownProcessGroup
  else if pid = -1 then .broadcast
  else .processGroup (-pid)

/-- Observable outcome of one pass of the signalHandler loop body. -/
structure RelayOutcome where
  killTarget : Int
  killSignal : Signal
  cleanupInvoked : Bool
  cleanupErrorLogged : Bool
  exitCode : Nat

/-- signalHandler (main.go lines 18-41), one received signal: map the signal
one to one, deliver it with syscall.Kill to the pid the handler currently
observes, invoke the Cleanup capability of the emitter, log a cleanup error
without propagating it, and call os.Exit with status zero. The body has no
wait on the child and no coordination with in-flight deliveries: the
outcome is a function of the observed pid, the emitter and the signal
alone. -/
def signalHandler (pid : Int) (emitter : Emitter) (signalReceived : Signal) : RelayOutcome :=
  { killTarget := pid
    killSignal := mapSignalToChild signalReceived
    cleanupInvoked := true
    cleanupErrorLogged := emitter.cleanup.isSome
    exitCode := 0 }

/-- Sentinel value placed in the shared pid variable before the subprocess is
started (main.go line 58). -/
def initialSubcmdPid : Int := -1

/-- Resolution of the emitter name from the environment (main.go lines 47-50):
the value of HABERDASHER_EMITTER, or the literal "stderr" when the variable
is unset. -/
def resolveEmitterName (env : Option String) : String :=
  env.getD "stderr"

/-- Observable outcome of program startup: the fatal message if the process
died during the logging init, whether the child was spawned, and the
records delivered to the sink by the read loop (listed in line order; the
per-line interleaving is modelled separately). -/
structure StartupOutcome where
  fatal : Option String
  childSpawned : Bool
  deliveries : List String

/-- Program startup order: Go runs the init of the logging package before
main, so a fatal decode error ends the process before main spawns the child
and before any record reaches the sink (emit.go lines 18-35, main.go
lines 43-87). On success the child is spawned and every line of its
diagnostic stream is classified and delivered. -/
def runStartup (tagsEnv labelsEnv : Option String) (childStderrLines : List String)
    (emitter : Emitter) (now : String) : StartupOutcome :=
  match Logging.init tagsEnv labelsEnv with
  | .error e => { fatal := some e, childSpawned := false, deliveries := [] }
  | .ok (defaultTags, defaultLabels) =>
    { fatal := none
      childSpawned := true
      deliveries := childStderrLines.map (fun l => (Emit emitter defaultLabels defaultTags now l).delivered) }

/-- Sequential reference semantics of the read loop (main.go lines 83-87): one
Emit call per line read from the captured stream. -/
def runLoop (emitter : Emitter) (labels : Option (List (String × String)))
    (tags : Option (List String)) (now : String) : List String → List EmitResult
  | [] => []
  | line :: rest => Emit emitter labels tags now line :: runLoop emitter labels tags now rest

/-- Shared state of the read loop and its goroutines: how many Scan calls have
succeeded, whether Scan has returned false at end of stream, how many
spawned goroutines have not yet run, and the records delivered so far. -/
structure ScanLoopState where
  scanCalls : Nat
  atEof : Bool
  pendingTasks : Nat
  delivered : List String

/-- What scanner.Text() returns in a given loop state: the token of the most
recent successful Scan, and the empty string after Scan has returned
false. -/
def scannerText (lines : List String) (s : ScanLoopState) : String :=
  if s.atEof then ""
  else if 1 ≤ s.scanCalls ∧ s.scanCalls ≤ lines.length then lines.getD (s.scanCalls - 1) ""
  else ""

/-- One interleaving event: a Scan call by the read loop, or the execution of
one previously spawned goroutine. -/
inductive LoopEvent where
  | scanStep
  | runTask

/-- Small-step semantics of the read loop of main (main.go lines 83-87). A
scan event advances the scanner and spawns one goroutine while input
remains, and records end of stream otherwise. A run event executes one
pending goroutine body, which reads scanner.Text() at execution time - as
the source closure does - and delivers the classification of whatever the
scanner then holds. -/
def loopStep (lines : List String) (emitter : Emitter)
    (labels : Option (List (String × String))) (tags : Option (List String)) (now : String)
    (s : ScanLoopState) : LoopEvent → ScanLoopState
  | .scanStep =>
    if s.scanCalls < lines.length then
      { s with scanCalls := s.scanCalls + 1, pendingTasks := s.pendingTasks + 1 }
    else { s with atEof := true }
  | .runTask =>
    match s.pendingTasks with
    | 0 => s
    | n + 1 =>
      { s with
        pendingTasks := n
        delivered := s.delivered ++ [(Emit emitter labels tags now (scannerText lines s)).delivered] }

/-- Run of the read loop under a given interleaving schedule, from the initial
shared state. -/
def runLoopSchedule (lines : List String) (emitter : Emitter)
    (labels : Option (List (String × String))) (tags : Option (List String)) (now : String)
    (events : List LoopEvent) : ScanLoopState :=
  events.foldl (loopStep lines emitter labels tags now) ⟨0, false, 0, []⟩

end Main

/-- Emitter whose deliveries and cleanup always succeed, used to instantiate
universally quantified statements at a concrete sink. -/
def nullEmitter : Logging.Emitter := ⟨fun _ => none, none⟩

/-- JSON value whose serialization is the Go marshalled form of a string
slice. -/
def tagsAsJson : Option (List String) → Jval
  | none => .null
  | some ts => .arr (ts.map .str)

/-- JSON value whose serialization is the Go marshalled form of a map of
string to string. -/
def labelsAsJson : Option (List (String × String)) → Jval
  | none => .null
  | some ls => .obj ((sortByKey ls).map (fun kv => (kv.1, .str kv.2)))

/-- Keys of a top-level JSON object, in order. -/
def topKeys : Jval → List String
  | .obj fs => fs.map Prod.fst
  | _ => []

/-- Syntactic classes of decoded JSON values for which Emit synthesizes the
envelope: arrays, strings, numbers and booleans. Objects and null are the
two classes the map decode accepts. -/
def isWrappedKind : Jval → Bool
  | .arr _ => true
  | .str _ => true
  | .num _ => true
  | .bool _ => true
  | _ => false

open Logging Main

/-- Associativity of string append, used to normalize serialized record
concatenations. -/
theorem str_append_assoc (a b c : String) : a ++ b ++ c = a ++ (b ++ c) := by
  rcases a with ⟨da⟩
  rcases b with ⟨db⟩
  rcases c with ⟨dc⟩
  show String.mk (da ++ db ++ dc) = String.mk (da ++ (db ++ dc))
  rw [List.append_assoc]

/-- Serialization of a list of JSON strings is elementwise Go string
encoding. -/
theorem serializeList_map_str (l : List String) :
    serializeList (l.map Jval.str) = l.map quoteGoString := by
  induction l with
  | nil => rfl
  | cons s rest ih => simp [serializeList, serializeVal, ih]

/-- Serialization of object fields holding JSON strings is elementwise
key-value encoding. -/
theorem serializeFields_map_str (l : List (String × String)) :
    serializeFields (l.map (fun kv => (kv.1, Jval.str kv.2)))
      = l.map (fun kv => quoteGoString kv.1 ++ ":" ++ quoteGoString kv.2) := by
  induction l with
  | nil => rfl
  | cons p rest ih => simp [serializeFields, serializeVal, ih]

/-- The JSON view of a marshalled string slice serializes to exactly the
marshalled bytes. -/
theorem serializeVal_tagsAsJson (t : Option (List String)) :
    serializeVal (tagsAsJson t) = goMarshalStringSlice t := by
  cases t with
  | none => rfl
  | some ts => simp [tagsAsJson, serializeVal, goMarshalStringSlice, serializeList_map_str]

/-- The JSON view of a marshalled string map serializes to exactly the
marshalled bytes. -/
theorem serializeVal_labelsAsJson (l : Option (List (String × String))) :
    serializeVal (labelsAsJson l) = goMarshalStringMap l := by
  cases l with
  | none => rfl
  | some ls => simp [labelsAsJson, serializeVal, goMarshalStringMap, serializeFields_map_str]

/-- C1: for every input line whose decode into a map succeeds with a JSON
object - it parses to an object and every number in it fits in float64, the
condition under which json.Unmarshal reports no error - Emit hands the raw
bytes of the line to the handleLogMessage capability of the sink unmodified
(pass-through identity). -/
theorem C1_passthrough_identity (em : Emitter) (labels : Option (List (String × String)))
    (tags : Option (List String)) (now line : String) (fields : List (String × Jval))
    (h : unmarshalTop line = some (Jval.obj fields))
    (hnums : jvalFieldsNumsOk fields = true) :
    (Emit em labels tags now line).delivered = line := by
  have hok : unmarshalIntoMapOk line = true := by
    unfold unmarshalIntoMapOk
    rw [h]
    exact hnums
  simp [Emit, classifyLine, hok]

/-- Witness for C1 at the structured line of the spec scenario. -/
theorem C1_passthrough_witness :
    unmarshalTop "\x7b\"level\":\"info\",\"msg\":\"hi\"\x7d"
      = some (Jval.obj [("level", Jval.str "info"), ("msg", Jval.str "hi")]) ∧
    jvalFieldsNumsOk [("level", Jval.str "info"), ("msg", Jval.str "hi")] = true ∧
    (Emit nullEmitter (some []) (some []) "T" "\x7b\"level\":\"info\",\"msg\":\"hi\"\x7d").delivered
      = "\x7b\"level\":\"info\",\"msg\":\"hi\"\x7d" :=
  ⟨rfl, rfl, C1_passthrough_identity nullEmitter (some []) (some []) "T"
    "\x7b\"level\":\"info\",\"msg\":\"hi\"\x7d"
    [("level", Jval.str "info"), ("msg", Jval.str "hi")] rfl rfl⟩

/-- C2 counterexample: on a plain text line the delivered record parses to a
JSON object whose five keys are named ecs.version, at-timestamp, labels,
tags, message - the keys schema-version and timestamp claimed by the
specification do not occur in the wire format. -/
theorem C2_wire_keys_counterexample :
    (unmarshalTop (classifyLine (some []) (some []) "2020-01-02T03:04:05Z" "plain text line")).map topKeys
      = some ["ecs.version", "@timestamp", "labels", "tags", "message"] ∧
    "schema-version" ∉ ["ecs.version", "@timestamp", "labels", "tags", "message"] ∧
    "timestamp" ∉ ["ecs.version", "@timestamp", "labels", "tags", "message"] :=
  ⟨rfl, by decide, by decide⟩

/-- C2 (amended): for every input line that does not decode into a map (so
neither a JSON object nor JSON null), the delivered bytes are exactly the
serialization of a JSON object with the five keys ecs.version, at-timestamp,
labels, tags and message, where the version value is the fixed constant,
the timestamp value is the capture-time instant, labels and tags are the
process-wide defaults, and message is the raw line. -/
theorem C2_envelope_amended (em : Emitter) (labels : Option (List (String × String)))
    (tags : Option (List String)) (now msg : String)
    (hmsg : unmarshalIntoMapOk msg = false)
    (hnow : encodeStringContent now = now) :
    (Emit em labels tags now msg).delivered =
      serializeVal (.obj [("ecs.version", .str defaultEcsVersion),
        ("@timestamp", .str now),
        ("labels", labelsAsJson labels),
        ("tags", tagsAsJson tags),
        ("message", .str msg)]) := by
  have hq : quoteGoString now = "\"" ++ now ++ "\"" := by
    unfold quoteGoString
    rw [hnow]
  simp [Emit, classifyLine, hmsg, marshalMessage, serializeVal, serializeFields, joinComma,
    serializeVal_tagsAsJson, serializeVal_labelsAsJson, hq, goMarshalTime, str_append_assoc]

/-- Witness for C2 at the plain text line of the spec scenario, with concrete
defaults. -/
theorem C2_envelope_witness :
    unmarshalIntoMapOk "plain text line" = false ∧
    encodeStringContent "2020-01-02T03:04:05Z" = "2020-01-02T03:04:05Z" ∧
    (Emit nullEmitter (some [("app", "x")]) (some ["t1"]) "2020-01-02T03:04:05Z" "plain text line").delivered
      = serializeVal (.obj [("ecs.version", .str defaultEcsVersion),
          ("@timestamp", .str "2020-01-02T03:04:05Z"),
          ("labels", labelsAsJson (some [("app", "x")])),
          ("tags", tagsAsJson (some ["t1"])),
          ("message", .str "plain text line")]) :=
  ⟨rfl, rfl, C2_envelope_amended nullEmitter (some [("app", "x")]) (some ["t1"])
    "2020-01-02T03:04:05Z" "plain text line" rfl rfl⟩

/-- C3: on a termination-class signal the relay sends the identical signal to
the recorded child pid, invokes the cleanup capability of the sink, and
exits with status zero; the outcome is a function of pid, emitter and
signal alone, with no dependence on the child state or on in-flight
deliveries. -/
theorem C3_signal_relay (pid : Int) (em : Emitter) (s : Signal) :
    (signalHandler pid em s).killSignal = s ∧
    (signalHandler pid em s).killTarget = pid ∧
    (signalHandler pid em s).cleanupInvoked = true ∧
    (signalHandler pid em s).exitCode = 0 := by
  refine ⟨?_, rfl, rfl, rfl⟩
  cases s <;> rfl

/-- C4: before spawn the shared pid holds the sentinel -1, and a signal
arriving in that window makes the relay call syscall.Kill on -1 - under
POSIX semantics a broadcast to every process the supervisor may signal,
not a no-op or deferred case. -/
theorem C4_sentinel_kill_broadcast (em : Emitter) (s : Signal) :
    initialSubcmdPid = -1 ∧
    (signalHandler initialSubcmdPid em s).killTarget = initialSubcmdPid ∧
    killScope initialSubcmdPid = KillScope.broadcast := by
  refine ⟨rfl, rfl, ?_⟩
  norm_num [killScope, initialSubcmdPid]

/-- C5 counterexample: the value null for HABERDASHER_TAGS is not a JSON
array of strings, yet startup is not fatal and the child is spawned,
because decoding null into a Go slice reports no error. -/
theorem C5_null_counterexample :
    unmarshalTop "null" = some Jval.null ∧
    (runStartup (some "null") none [] nullEmitter "T").fatal = none ∧
    (runStartup (some "null") none [] nullEmitter "T").childSpawned = true :=
  ⟨rfl, rfl, rfl⟩

/-- C5 (amended): configuration whose decode reports an error (HABERDASHER_TAGS
neither a JSON array of strings nor JSON null, or HABERDASHER_LABELS neither
a JSON object with string values nor JSON null) is process-fatal at startup,
strictly before the child is spawned and before any sink delivery. -/
theorem C5_malformed_config_fatal (tagsEnv labelsEnv : Option String)
    (childLines : List String) (em : Emitter) (now : String)
    (h : decodeStringArray (tagsEnv.getD emptyArrayLit) = none ∨
         decodeStringMap (labelsEnv.getD emptyObjectLit) = none) :
    (runStartup tagsEnv labelsEnv childLines em now).fatal.isSome = true ∧
    (runStartup tagsEnv labelsEnv childLines em now).childSpawned = false ∧
    (runStartup tagsEnv labelsEnv childLines em now).deliveries = [] := by
  rcases h with h | h
  · simp [runStartup, Logging.init, h]
  · cases h1 : decodeStringArray (tagsEnv.getD emptyArrayLit) with
    | none => simp [runStartup, Logging.init, h1]
    | some t => simp [runStartup, Logging.init, h1, h]

/-- Witness for C5 at a boolean tags value, whose decode fails. -/
theorem C5_malformed_config_witness :
    decodeStringArray ((some "true").getD emptyArrayLit) = none ∧
    (runStartup (some "true") none [] nullEmitter "T").fatal.isSome = true ∧
    (runStartup (some "true") none [] nullEmitter "T").childSpawned = false :=
  ⟨rfl, (C5_malformed_config_fatal (some "true") none [] nullEmitter "T" (Or.inl rfl)).1,
    (C5_malformed_config_fatal (some "true") none [] nullEmitter "T" (Or.inl rfl)).2.1⟩

/-- C6: with the environment entirely unset, the emitter name resolves to
stderr and the logging init resolves the defaults to the empty tag slice
and the empty label map. -/
theorem C6_unset_defaults :
    resolveEmitterName none = "stderr" ∧
    Logging.init none none = .ok (some [], some []) :=
  ⟨rfl, rfl⟩

/-- C7: delivery and teardown errors are contained. Whatever errors the sink
reports, the read loop delivers every line exactly once with its classified
bytes; a delivery error becomes exactly one local log line carrying the
offending record; and after a teardown error the relay still logs it and
exits with status zero. -/
theorem C7_error_containment :
    (∀ (em : Emitter) (labels : Option (List (String × String))) (tags : Option (List String))
        (now : String) (lines : List String),
        (runLoop em labels tags now lines).map EmitResult.delivered
          = lines.map (classifyLine labels tags now)) ∧
    (∀ (em : Emitter) (labels : Option (List (String × String))) (tags : Option (List String))
        (now line : String),
        (Emit em labels tags now line).errorLogged
          = (em.handleLogMessage (classifyLine labels tags now line)).map
              (fun err => "Error emitting message: " ++ classifyLine labels tags now line ++ " " ++ err)) ∧
    (∀ (pid : Int) (em : Emitter) (s : Signal),
        (signalHandler pid em s).exitCode = 0 ∧
        (signalHandler pid em s).cleanupInvoked = true ∧
        (signalHandler pid em s).cleanupErrorLogged = em.cleanup.isSome) := by
  refine ⟨?_, fun em labels tags now line => rfl, fun pid em s => ⟨rfl, rfl, rfl⟩⟩
  intro em labels tags now lines
  induction lines with
  | nil => rfl
  | cons l rest ih => simp [runLoop, Emit, ih]

/-- C8 bug exhibit: with child lines a then b, the schedule in which both
goroutines execute after the second Scan makes both of them read b through
scanner.Text(), so b is delivered twice and a is never delivered, although
both Scan calls succeeded and both spawned tasks ran to completion. -/
theorem C8_scanner_race_bug :
    (runLoopSchedule ["a", "b"] nullEmitter (some []) (some []) "T"
        [.scanStep, .scanStep, .runTask, .runTask]).scanCalls = 2 ∧
    (runLoopSchedule ["a", "b"] nullEmitter (some []) (some []) "T"
        [.scanStep, .scanStep, .runTask, .runTask]).pendingTasks = 0 ∧
    (runLoopSchedule ["a", "b"] nullEmitter (some []) (some []) "T"
        [.scanStep, .scanStep, .runTask, .runTask]).delivered
      = [classifyLine (some []) (some []) "T" "b", classifyLine (some []) (some []) "T" "b"] ∧
    classifyLine (some []) (some []) "T" "a" ∉
      (runLoopSchedule ["a", "b"] nullEmitter (some []) (some []) "T"
        [.scanStep, .scanStep, .runTask, .runTask]).delivered := by
  refine ⟨rfl, rfl, rfl, ?_⟩
  decide

/-- C9: a line decoding to a JSON array, string, number or boolean is wrapped
in the synthesized envelope, but the literal line null is passed through
byte for byte, because decoding null into a Go map reports no error. -/
theorem C9_null_passthrough_quirk :
    (∀ (em : Emitter) (labels : Option (List (String × String))) (tags : Option (List String))
        (now line : String) (v : Jval),
        unmarshalTop line = some v → isWrappedKind v = true →
        (Emit em labels tags now line).delivered
          = marshalMessage ⟨defaultEcsVersion, now, labels, tags, line⟩) ∧
    (∀ (em : Emitter) (labels : Option (List (String × String))) (tags : Option (List String))
        (now : String),
        (Emit em labels tags now "null").delivered = "null") := by
  constructor
  · intro em labels tags now line v hparse hkind
    have hok : unmarshalIntoMapOk line = false := by
      unfold unmarshalIntoMapOk
      rw [hparse]
      cases v <;> simp_all [isWrappedKind]
    simp [Emit, classifyLine, hok]
  · intro em labels tags now
    have hok : unmarshalIntoMapOk "null" = true := rfl
    simp [Emit, classifyLine, hok]

/-- Witness for C9 at a JSON array line. -/
theorem C9_wrap_witness :
    unmarshalTop "[1,2]" = some (Jval.arr [Jval.num "1", Jval.num "2"]) ∧
    isWrappedKind (Jval.arr [Jval.num "1", Jval.num "2"]) = true ∧
    (Emit nullEmitter (some []) (some []) "T" "[1,2]").delivered
      = marshalMessage ⟨defaultEcsVersion, "T", some [], some [], "[1,2]"⟩ :=
  ⟨rfl, rfl, C9_null_passthrough_quirk.1 nullEmitter (some []) (some []) "T" "[1,2]"
    (Jval.arr [Jval.num "1", Jval.num "2"]) rfl rfl⟩

/-- C10: registration under a name already present replaces the previous
implementation - after Register, looking the name up yields the new emitter
whatever the prior registry contents. -/
theorem C10_register_last_wins (emitters : String → Option Emitter) (name : String) (e : Emitter) :
    Logging.Register emitters name e name = some e := by
  simp [Logging.Register]

end Haberdasher
